import Mathlib

/-!
Verification development for the LotSearch monitoring bot.

This file gives a shallow embedding, in Lean 4, of the change-detection and
delivery pipeline of the repository (services/monitor.py, services/storage.py,
services/parser.py, models/item.py, config/settings.py), and proves or refutes
the behavioural claims made about it.

Modelling conventions:
* pure Python functions become Lean functions; SQLite tables become lists of
  row records operated on by explicit upsert functions; the key-value
  `app_meta` table becomes an association list;
* Python strings are Lean `String`s; `str.lower()` is modelled for the ASCII
  and Cyrillic ranges actually exercised by the code; the `in` operator on
  strings is a substring test;
* Python `float` settings are modelled as `Rat`;
* a Python exception escaping to the nearest handler is modelled by the
  `PyOutcome.raised` constructor;
* network effects are modelled by passing the would-be responses in as data
  (per-card fetched documents, an attempt-indexed oracle for HTTP GETs).
-/

namespace LotSearch

/-! ### String utilities shared by the embedded code -/

/-- Model of Python `str.lower` on a character, covering the ASCII letters and
the Cyrillic А..Я / Ё range that the embedded code's literals use. -/
def pyLowerChar (c : Char) : Char :=
  if 'A' ≤ c ∧ c ≤ 'Z' then Char.ofNat (c.toNat + 32)
  else if 'А' ≤ c ∧ c ≤ 'Я' then Char.ofNat (c.toNat + 32)
  else if c = 'Ё' then 'ё'
  else c

/-- Model of Python `str.lower`. -/
def pyLower (s : String) : String :=
  ⟨s.data.map pyLowerChar⟩

/-- True when `needle` occurs as a contiguous sublist of `hay`; models the
Python `in` operator on strings. -/
def listContainsSub : List Char → List Char → Bool
  | [], needle => needle.isEmpty
  | hay@(_ :: t), needle =>
    if needle.isPrefixOf hay then true else listContainsSub t needle

/-- Model of Python `needle in hay` for strings. -/
def containsStr (hay needle : String) : Bool :=
  listContainsSub hay.data needle.data

/-- Whitespace characters: ASCII whitespace plus NBSP, covering Python's
`str.strip` / regex `\s` on this page family. -/
def pyIsSpace (c : Char) : Bool :=
  c = ' ' || c = '\t' || c = '\n' || c = '\r' || c = '\x0b' || c = '\x0c' || c.toNat = 160

/-- Model of Python `s.startswith(pre)`. -/
def pyStartsWith (s pre : String) : Bool :=
  pre.data.isPrefixOf s.data

/-- Model of Python `str.strip()`: remove leading and trailing whitespace. -/
def pyStrip (s : String) : String :=
  ⟨((s.data.dropWhile pyIsSpace).reverse.dropWhile pyIsSpace).reverse⟩

/-- Model of Python `a or b` where `a`, `b` are optional strings and the empty
string is falsy (the `tag.get(...) or tag.get(...)` idiom). -/
def pyOr2 (a b : Option String) : Option String :=
  match a with
  | some s => if s = "" then b else some s
  | none => b

/-- Remove duplicates keeping the first occurrence of each element; models the
`seen`-set loop at the end of `Parser._parse_gallery_images`. -/
def dedupFirst : List String → List String → List String
  | _, [] => []
  | seen, u :: rest =>
    if seen.contains u then dedupFirst seen rest
    else u :: dedupFirst (u :: seen) rest

/-! ### The `Item` model (models/item.py)

`models.Item` is a `@dataclass(slots=True)` with exactly the five fields
below.  Its `__post_init__` normalises `img_url`/`image_urls` against each
other.  The Python tuple `image_urls` is modelled as a `List String`. -/

structure Item where
  url : String
  title : String
  price : String
  img_url : String
  image_urls : List String
deriving DecidableEq, Repr

/-- The `Item` constructor including `__post_init__` (models/item.py lines
17-23): if `image_urls` is truthy and `img_url` falsy, `img_url` becomes
`image_urls[0]`; else if `img_url` is truthy and `image_urls` falsy,
`image_urls` becomes the one-element tuple `(img_url,)`. -/
def mk_item (url title price img_url : String) (image_urls : List String) : Item :=
  if ¬ image_urls.isEmpty ∧ img_url = "" then
    ⟨url, title, price, image_urls.headD "", image_urls⟩
  else if img_url ≠ "" ∧ image_urls.isEmpty then
    ⟨url, title, price, img_url, [img_url]⟩
  else
    ⟨url, title, price, img_url, image_urls⟩

/-! ### Item history store (services/storage.py, `ItemRepository`)

The `items` table is modelled as a list of rows in rowid order; the `gallery`
JSON column as a `List String`; the nullable description columns as options;
`created_at` as an abstract timestamp. -/

structure Row where
  url : String
  title : String
  price : String
  img_url : String
  gallery : List String
  description_table : Option (List (String × String))
  description_text : Option String
  source_url : String
  created_at : Nat
deriving DecidableEq, Repr

/-- `ItemRepository.get_known_urls(source_url)` (storage.py lines 70-78):
`SELECT url FROM items WHERE source_url = ?`.  The Python set is modelled as
the list of urls of matching rows, used only through membership. -/
def get_known_urls (db : List Row) (source_url : String) : List String :=
  (db.filter (fun r => r.source_url = source_url)).map (fun r => r.url)

/-- One `INSERT ... ON CONFLICT(url) DO UPDATE` step of `save_items`
(storage.py lines 160-175).  On conflict every field is updated from the new
record except `created_at`, which is not in the update list; otherwise the
record is appended. -/
def upsert_row (db : List Row) (r : Row) : List Row :=
  if db.any (fun x => x.url = r.url) then
    db.map (fun x => if x.url = r.url then { r with created_at := x.created_at } else x)
  else
    db ++ [r]

/-- Outcome of a Python call: either a value, or an exception (TypeError /
AttributeError) escaping to the nearest handler. -/
inductive PyOutcome (α : Type) where
  | ok (val : α)
  | raised
deriving DecidableEq, Repr

/-- `ItemRepository.save_items(items, source_url)` as it behaves at HEAD
(storage.py lines 142-176).  The record list comprehension reads
`item.description_table` and `item.description_text` (lines 151-152), but
`models.Item` is a slots dataclass that declares neither attribute, so for a
non-empty item list the comprehension raises `AttributeError` before any SQL
runs and the database is left untouched; for an empty list the comprehension
is empty and the method returns early without writing. -/
def save_items (items : List Item) (_source_url : String) (db : List Row) :
    PyOutcome (List Row) :=
  if items.isEmpty then .ok db else .raised

/-- `Item` as every consumer in services/ assumes it: the five dataclass
fields plus the `description_table`/`description_text` attributes read by
`save_items`, `_build_notification_caption` and produced by
`parse_single_item_page`.  This is the intended item model, against which the
change-detection laws are stated. -/
structure ItemD where
  url : String
  title : String
  price : String
  img_url : String
  image_urls : List String
  description_table : Option (List (String × String)) := none
  description_text : Option String := none
deriving DecidableEq, Repr

/-- The record built for one item by `save_items` (storage.py lines 144-157):
the `gallery` column is `list(item.image_urls) or ([item.img_url] if
item.img_url else [])` serialised to JSON. -/
def row_of_item (item : ItemD) (source_url : String) (ts : Nat) : Row :=
  { url := item.url
    title := item.title
    price := item.price
    img_url := item.img_url
    gallery :=
      if item.image_urls.isEmpty then
        (if item.img_url = "" then [] else [item.img_url])
      else item.image_urls
    description_table := item.description_table
    description_text := item.description_text
    source_url := source_url
    created_at := ts }

/-- `save_items` as its callers and tests assume it to behave, i.e. over the
intended item model `ItemD`: sequential upserts of all records, keyed by
`url`. -/
def save_items_fixed (items : List ItemD) (source_url : String) (ts : Nat)
    (db : List Row) : List Row :=
  items.foldl (fun acc item => upsert_row acc (row_of_item item source_url ts)) db

/-! ### Monitor (services/monitor.py) -/

/-- `_build_notification_caption` at HEAD (monitor.py lines 26-98): line 56
reads `item.description_table`, an attribute the slots dataclass `Item` does
not declare, so the caption builder raises `AttributeError` for every item
before any text is produced. -/
def build_notification_caption (_item : Item) (_tracking_label : Option String)
    (_tracking_url : Option String) : PyOutcome String :=
  .raised

/-- `Monitor._send_notification` (monitor.py lines 240-261): builds the
caption first; at HEAD the caption builder raises before any message is handed
to the transport, so no delivery happens. -/
def send_notification (item : Item) (tracking_label : Option String)
    (tracking_url : Option String) : PyOutcome Unit :=
  match build_notification_caption item tracking_label tracking_url with
  | .ok _ => .ok ()
  | .raised => .raised

/-- The notification loop of `_check_url` (monitor.py lines 229-230): notify
each new item in scrape order, counting deliveries, aborting on the first
escaping exception. -/
def send_all (tracking_label : Option String) (tracking_url : Option String) :
    List Item → PyOutcome Nat
  | [] => .ok 0
  | item :: rest =>
    match send_notification item tracking_label tracking_url with
    | .ok _ =>
      match send_all tracking_label tracking_url rest with
      | .ok n => .ok (n + 1)
      | .raised => .raised
    | .raised => .raised

/-- `Monitor._check_url` at HEAD (monitor.py lines 174-237), as a function of
the database, the fetcher's error flag, and the scraped items.  Result: the
database after the check, the number of notifications delivered, and the
success flag returned to `check_new_items`; `.raised` models an exception
escaping `_check_url` (at HEAD nothing is persisted and nothing delivered in
that case, since both `save_items` and the caption builder raise before their
first side effect).  The gallery-load alert (lines 197-213) only emits an
out-of-band message and is not part of this state. -/
def check_url (db : List Row) (page_load_failed : Bool) (current_items : List Item)
    (source_url : String) : PyOutcome (List Row × Nat × Bool) :=
  if page_load_failed then .ok (db, 0, false)
  else if current_items.isEmpty then .ok (db, 0, false)
  else
    let known := get_known_urls db source_url
    if known.isEmpty then
      match save_items current_items source_url db with
      | .ok db2 => .ok (db2, 0, true)
      | .raised => .raised
    else
      let new_items := current_items.filter (fun item => ¬ known.contains item.url)
      match send_all none (some source_url) new_items with
      | .ok n =>
        match save_items current_items source_url db with
        | .ok db2 => .ok (db2, n, true)
        | .raised => .raised
      | .raised => .raised

/-- `Monitor._check_url` over the intended item model (what the code's own
tests in tests/test_monitor.py assert): same control flow as `check_url`, with
`save_items` actually persisting and the notified items returned in scrape
order. -/
def check_url_fixed (db : List Row) (page_load_failed : Bool)
    (items : List ItemD) (source_url : String) (ts : Nat) :
    List Row × List ItemD × Bool :=
  if page_load_failed then (db, [], false)
  else if items.isEmpty then (db, [], false)
  else
    let known := get_known_urls db source_url
    if known.isEmpty then
      (save_items_fixed items source_url ts db, [], true)
    else
      let new_items := items.filter (fun item => ¬ known.contains item.url)
      (save_items_fixed items source_url ts db, new_items, true)

/-! ### Runtime settings store (services/storage.py, `AppSettingsRepository`)

The `app_meta` key-value table is an association list with unique keys; the
repository object itself is stateless beyond it, so "reconstructing the store
over the same backing storage" is modelled by reading the same list.  Python
floats are modelled as `Rat`; validation errors as `Except String`. -/

abbrev MetaKV := List (String × String)

/-- `AppSettingsRepository._get_meta` (storage.py lines 503-509). -/
def get_meta (kv : MetaKV) (key : String) : Option String :=
  match kv.find? (fun e => e.1 = key) with
  | some e => some e.2
  | none => none

/-- `AppSettingsRepository._set_meta` (storage.py lines 511-517): `INSERT OR
REPLACE` on the `app_meta` primary key, i.e. replace the existing entry for
the key or append a new one. -/
def set_meta : MetaKV → String → String → MetaKV
  | [], key, value => [(key, value)]
  | e :: rest, key, value =>
    if e.1 = key then (key, value) :: rest else e :: set_meta rest key value

/-- Digit-list accumulator for `pyParseInt`. -/
def parseNatDigitsGo : List Char → Nat → Option Nat
  | [], acc => some acc
  | c :: rest, acc =>
    if c.isDigit then parseNatDigitsGo rest (acc * 10 + (c.toNat - 48)) else none

/-- Parse a non-empty run of decimal digits. -/
def parseNatDigits : List Char → Option Nat
  | [] => none
  | l => parseNatDigitsGo l 0

/-- Model of Python `int(raw)` returning `None` on `ValueError`, adequate for
the decimal renderings the settings store writes. -/
def pyParseInt (s : String) : Option Int :=
  match s.data with
  | '-' :: rest => (parseNatDigits rest).map (fun n => -(n : Int))
  | l => (parseNatDigits l).map (fun n => (n : Int))

/-- `AppSettingsRepository.get_check_interval` (storage.py lines 538-546). -/
def get_check_interval (kv : MetaKV) (default_interval : Int) : Int :=
  match get_meta kv "check_interval_minutes" with
  | none => default_interval
  | some raw =>
    if raw = "" then default_interval
    else
      match pyParseInt raw with
      | none => default_interval
      | some minutes => if minutes > 0 then minutes else default_interval

/-- `AppSettingsRepository.set_check_interval` (storage.py lines 548-555).
The mirror assignment into the live `settings` object is a side effect outside
the store and not modelled. -/
def set_check_interval (kv : MetaKV) (minutes : Int) : Except String MetaKV :=
  if minutes ≤ 0 then .error "Интервал должен быть положительным"
  else if minutes < 3 then
    .error "Минимальный интервал — 3 минуты (чтобы не перегружать сервер)"
  else .ok (set_meta kv "check_interval_minutes" (toString minutes))

/-- `AppSettingsRepository.set_request_timeout` (storage.py lines 620-628). -/
def set_request_timeout (kv : MetaKV) (timeout : Rat) : Except String MetaKV :=
  if timeout ≤ 0 then .error "Таймаут должен быть положительным"
  else if timeout > 300 then .error "Таймаут не должен превышать 300 секунд"
  else .ok (set_meta kv "request_timeout" (toString timeout))

/-- `AppSettingsRepository.set_request_max_retries` (storage.py lines 641-649). -/
def set_request_max_retries (kv : MetaKV) (retries : Int) : Except String MetaKV :=
  if retries < 0 then .error "Количество попыток не может быть отрицательным"
  else if retries > 20 then .error "Количество попыток не должно превышать 20"
  else .ok (set_meta kv "request_max_retries" (toString retries))

/-- `AppSettingsRepository.set_request_backoff_factor` (storage.py lines
662-670). -/
def set_request_backoff_factor (kv : MetaKV) (backoff : Rat) : Except String MetaKV :=
  if backoff < 0 then .error "Backoff фактор не может быть отрицательным"
  else if backoff > 10 then .error "Backoff фактор не должен превышать 10"
  else .ok (set_meta kv "request_backoff_factor" (toString backoff))

/-- `AppSettingsRepository.set_request_delay_seconds` (storage.py lines
683-691). -/
def set_request_delay_seconds (kv : MetaKV) (delay : Rat) : Except String MetaKV :=
  if delay < 0 then .error "Задержка не может быть отрицательной"
  else if delay > 60 then .error "Задержка не должна превышать 60 секунд"
  else .ok (set_meta kv "request_delay_seconds" (toString delay))

/-- True when the setter accepted the value. -/
def accepts {α : Type} : Except String α → Bool
  | .ok _ => true
  | .error _ => false

/-! ### Delivery subsystem (services/monitor.py, `_send_to_chat`) -/

/-- One entry of a Telegram media group (`InputMediaPhoto`). -/
structure MediaPhoto where
  media : String
  caption : Option String
  parse_mode : Option String
deriving DecidableEq, Repr

/-- The outbound message produced for one chat. -/
inductive Outbound where
  | mediaGroup (media : List MediaPhoto)
  | photo (photo : String) (caption : String) (parse_mode : Option String)
  | message (text : String) (parse_mode : Option String)
deriving DecidableEq, Repr

/-- The media-group construction loop of `_send_to_chat` (monitor.py lines
323-334): index 0 carries the caption and parse mode, later entries carry
neither. -/
def build_media_group (urls : List String) (caption : String)
    (parse_mode : Option String) : List MediaPhoto :=
  match urls with
  | [] => []
  | first :: rest => ⟨first, some caption, parse_mode⟩ :: rest.map (fun u => ⟨u, none, none⟩)

/-- `Monitor._send_to_chat` (monitor.py lines 315-358): more than one media
url yields an album capped to the first 10 urls; exactly one yields a single
photo with caption; none yields a text message. -/
def send_to_chat (media_urls : List String) (caption : String)
    (parse_mode : Option String) : Outbound :=
  if media_urls.length > 1 then
    .mediaGroup (build_media_group (media_urls.take 10) caption parse_mode)
  else
    match media_urls with
    | first :: _ => .photo first caption parse_mode
    | [] => .message caption parse_mode

/-- The media-url selection of `_send_notification` (monitor.py lines
249-252): keep the truthy gallery urls; if none remain and `img_url` is
truthy, fall back to it alone. -/
def select_media_urls (item : Item) : List String :=
  let media := item.image_urls.filter (fun u => u ≠ "")
  if media.isEmpty ∧ item.img_url ≠ "" then [item.img_url] else media

/-! ### Page fetcher (services/parser.py, `get_page_content`) -/

/-- Outcome of one HTTP GET as seen by `get_page_content`: a body, or one of
the exception classes it catches (`status` stands for `raise_for_status`
raising `ClientResponseError` on an error status). -/
inductive HttpAttempt where
  | ok (body : String)
  | status (code : Nat)
  | timeout
  | connectionError
  | clientError
deriving DecidableEq, Repr

/-- The typed error state recorded in `self.last_error`. -/
inductive FetchError where
  | timeoutError
  | connectionError
  | httpError (code : Nat)
  | otherClientError
deriving DecidableEq, Repr

/-- The fetcher state observable by `Monitor._check_url` after a fetch. -/
structure FetchResult where
  content : Option String
  last_page_load_failed : Bool
  last_error : Option FetchError
deriving DecidableEq, Repr

/-- `Parser.get_page_content` (parser.py lines 74-110).  `net i` is the
outcome the `i`-th GET of the url would produce.  The coroutine issues exactly
one `session.get` with no retry loop — `settings.REQUEST_MAX_RETRIES` and
`settings.REQUEST_BACKOFF_FACTOR` are never read by any fetch path — so the
result is determined by `net 0` alone. -/
def get_page_content (net : Nat → HttpAttempt) : FetchResult :=
  match net 0 with
  | .ok body => ⟨some body, false, none⟩
  | .status code => ⟨none, true, some (.httpError code)⟩
  | .timeout => ⟨none, true, some .timeoutError⟩
  | .connectionError => ⟨none, true, some .connectionError⟩
  | .clientError => ⟨none, true, some .otherClientError⟩

/-! ### Sort-order URL rewriting (services/storage.py, `_apply_order_to_url`)

`urllib.parse.urlparse` / `urlunparse` are stdlib plumbing around the code's
own logic; they are modelled by working directly on the parsed representation
`UrlParts` (the rarely used `params` component is folded into `path`).
`_apply_order_to_url` touches only the `query` component, via
`parsed._replace(query=...)`. -/

structure UrlParts where
  scheme : String
  netloc : String
  path : String
  query : String
  fragment : String
deriving DecidableEq, Repr

/-- Model of Python `raw_query.split('&')` on character lists: splitting on a
single separator, keeping empty segments, with `split` of the empty list being
one empty segment. -/
def splitAmp : List Char → List (List Char)
  | [] => [[]]
  | c :: rest =>
    match splitAmp rest with
    | [] => [[]]
    | seg :: segs => if c = '&' then [] :: seg :: segs else (c :: seg) :: segs

/-- Model of Python `"&".join(...)` on character lists. -/
def joinAmp : List (List Char) → List Char
  | [] => []
  | [s] => s
  | s :: rest => s ++ '&' :: joinAmp rest

/-- The key of a query segment: `segment.partition('=')[0]`, i.e. everything
before the first `=`. -/
def segKey (seg : List Char) : List Char :=
  seg.takeWhile (fun c => c ≠ '=')

/-- Safe characters of `urllib.parse.quote_plus`: ASCII alphanumerics and
`_.-~` pass through unencoded. -/
def quoteSafeChar (c : Char) : Bool :=
  c.isAlphanum || c = '_' || c = '.' || c = '-' || c = '~'

/-- Upper-case hexadecimal digit, for percent-encoding. -/
def hexDigitChar (n : Nat) : Char :=
  if n < 10 then Char.ofNat (48 + n) else Char.ofNat (55 + n)

/-- Percent-encoding of one character under `quote_plus`: safe characters are
kept, a space becomes `+`, anything else is `%XX`-encoded (modelled for
single-byte code points, which covers the validated sort-order values). -/
def quotePlusChar (c : Char) : List Char :=
  if quoteSafeChar c then [c]
  else if c = ' ' then ['+']
  else ['%', hexDigitChar (c.toNat % 256 / 16), hexDigitChar (c.toNat % 16)]

/-- Model of `urllib.parse.quote_plus`. -/
def quotePlus (s : String) : String :=
  ⟨(s.data.map quotePlusChar).flatten⟩

/-- `_apply_order_to_url` (storage.py lines 216-246): with an empty query,
return the url unchanged (no order) or set `order=<encoded>`; otherwise split
the query on `&`, keep empty segments and every segment whose key is not
`order`, then append `order=<encoded>` when an order is given. -/
def apply_order_to_url (parts : UrlParts) (order : Option String) : UrlParts :=
  if parts.query = "" then
    match order with
    | none => parts
    | some o => { parts with query := "order=" ++ quotePlus o }
  else
    let segments := splitAmp parts.query.data
    let preserved := segments.filter (fun seg => seg.isEmpty || segKey seg ≠ "order".data)
    let withOrder :=
      match order with
      | some o => preserved ++ [("order=" ++ quotePlus o).data]
      | none => preserved
    { parts with query := ⟨joinAmp withOrder⟩ }

/-- The sort orders accepted by `TrackedPageRepository.update_sort`
(storage.py line 447). -/
def valid_orders : List String :=
  ["stop", "create", "cost_asc", "cost_desc", "rating"]

/-- The segments of a query component: none for an empty query, otherwise the
`&`-split of the string. -/
def querySegments (query : String) : List (List Char) :=
  if query = "" then [] else splitAmp query.data

/-- The segment appended for a given order mutation: `order=<encoded>` when an
order is given, nothing otherwise. -/
def orderSegment : Option String → List (List Char)
  | some o => [("order=" ++ quotePlus o).data]
  | none => []

/-! ### Listing and detail extraction (services/parser.py)

BeautifulSoup is an external HTML library; documents are modelled by the
already-selected node data that the code reads from them (per-selector fields,
stripped-string lists, attribute options), with each field documented by the
selector it stands for. -/

/-- `BASE_URL` (parser.py line 17). -/
def BASE_URL : String := "https://ay.by"

/-- The directory part of a url path: everything up to and including the last
slash, or a single slash when the path has none. -/
def dirOfChars (path : List Char) : List Char :=
  let r := path.reverse.dropWhile (fun c => c ≠ '/')
  if r.isEmpty then ['/'] else r.reverse

/-- Split an absolute http(s) base url into `scheme://host` and the path that
follows. -/
def hostSplit (base : String) : Option (String × String) :=
  if pyStartsWith base "https://" then
    let rest := (base.data.drop 8)
    let host := rest.takeWhile (fun c => c ≠ '/')
    some (⟨"https://".data ++ host⟩, ⟨rest.drop host.length⟩)
  else if pyStartsWith base "http://" then
    let rest := (base.data.drop 7)
    let host := rest.takeWhile (fun c => c ≠ '/')
    some (⟨"http://".data ++ host⟩, ⟨rest.drop host.length⟩)
  else none

/-- Simplified model of `urllib.parse.urljoin`, adequate for the references
this code resolves: absolute references are returned unchanged, root-relative
references replace the base's path, other references are resolved against the
base's directory; bases are the absolute http(s) page urls the repository
validates. -/
def pyUrljoin (base rel : String) : String :=
  if pyStartsWith rel "http://" || pyStartsWith rel "https://" then rel
  else
    match hostSplit base with
    | none => rel
    | some (pre, path) =>
      if pyStartsWith rel "/" then pre ++ rel
      else pre ++ String.mk (dirOfChars path.data) ++ rel

/-- `Parser._normalize_media_url` (parser.py lines 310-321). -/
def normalize_media_url (url : String) (base_url : Option String) : String :=
  let candidate := pyStrip url
  if candidate = "" then ""
  else if pyStartsWith candidate "//" then "https:" ++ candidate
  else if pyStartsWith candidate "http" then candidate
  else if pyStartsWith candidate "/" then pyUrljoin (base_url.getD BASE_URL) candidate
  else pyUrljoin (base_url.getD BASE_URL) candidate

/-! #### The price pattern

`PRICE_PATTERN` (parser.py lines 18-21) is the regex
`(\d[\d\s]*[\.,]\d{2}|\d[\d\s]*)(?:\s*(?:бел\.\s*)?руб\.?)` with `IGNORECASE`,
searched left to right.  It is embedded as an explicit matcher:
`matchAt` matches the pattern at one position (first alternative first,
greedy-with-backtracking on the digit/space run, which for the first
alternative can only succeed on the maximal run since `[.,]` matches neither a
digit nor a space), and `searchPrice` scans for the leftmost match.  `\d` and
`\s` are modelled by ASCII digits and the common whitespace characters
(including NBSP), which covers this page family. -/

/-- Character class `[\d\s]`. -/
def isDigitOrSpace (c : Char) : Bool :=
  c.isDigit || pyIsSpace c

/-- Match `руб\.?` case-insensitively at the head; returns consumed length. -/
def matchRub (l : List Char) : Option Nat :=
  match l with
  | r :: u :: b :: rest =>
    if pyLowerChar r = 'р' ∧ pyLowerChar u = 'у' ∧ pyLowerChar b = 'б' then
      some (3 + (if rest.head? = some '.' then 1 else 0))
    else none
  | _ => none

/-- Does `бел.` match case-insensitively at the head? -/
def matchBel (l : List Char) : Bool :=
  match l with
  | b :: e :: lc :: d :: _ =>
    pyLowerChar b = 'б' ∧ pyLowerChar e = 'е' ∧ pyLowerChar lc = 'л' ∧ d = '.'
  | _ => false

/-- Match the suffix `(?:\s*(?:бел\.\s*)?руб\.?)` at the head; returns
consumed length.  The optional group is greedy: it is tried first, and when it
fails `руб` is tried at the same position. -/
def matchSuffix (l : List Char) : Option Nat :=
  let sp := (l.takeWhile pyIsSpace).length
  let rest := l.drop sp
  let withBel : Option Nat :=
    if matchBel rest then
      let r2 := rest.drop 4
      let sp2 := (r2.takeWhile pyIsSpace).length
      match matchRub (r2.drop sp2) with
      | some n => some (sp + 4 + sp2 + n)
      | none => none
    else none
  match withBel with
  | some n => some n
  | none =>
    match matchRub rest with
    | some n => some (sp + n)
    | none => none

/-- Backtracking for the second alternative `\d[\d\s]*`: try the suffix after
consuming `j` characters of the digit/space run, decreasing greedily. -/
def tryAlt2 (l : List Char) : Nat → Option Nat
  | 0 =>
    match matchSuffix l with
    | some n => some n
    | none => none
  | j + 1 =>
    match matchSuffix (l.drop (j + 1)) with
    | some n => some (j + 1 + n)
    | none => tryAlt2 l j

/-- Match the full price pattern at the head; returns the matched length. -/
def matchAt (l : List Char) : Option Nat :=
  match l with
  | [] => none
  | c :: rest =>
    if c.isDigit then
      let k := (rest.takeWhile isDigitOrSpace).length
      let alt1 :=
        match rest.drop k with
        | p :: d1 :: d2 :: r3 =>
          if (p = '.' ∨ p = ',') ∧ d1.isDigit ∧ d2.isDigit then
            match matchSuffix r3 with
            | some n => some (1 + k + 3 + n)
            | none => none
          else none
        | _ => none
      match alt1 with
      | some n => some n
      | none =>
        match tryAlt2 rest k with
        | some n => some (1 + n)
        | none => none
    else none

/-- `re.search` with the price pattern: the leftmost match, as the matched
characters (`match.group(0)`). -/
def searchPrice : List Char → Option (List Char)
  | [] => none
  | c :: rest =>
    match matchAt (c :: rest) with
    | some n => some ((c :: rest).take n)
    | none => searchPrice rest

/-- Worker for `pySplitWs`, carrying the reversed current word. -/
def pySplitWsGo : List Char → List Char → List (List Char)
  | [], acc => if acc.isEmpty then [] else [acc.reverse]
  | c :: rest, acc =>
    if pyIsSpace c then
      if acc.isEmpty then pySplitWsGo rest []
      else acc.reverse :: pySplitWsGo rest []
    else pySplitWsGo rest (c :: acc)

/-- Model of Python `str.split()`: split on whitespace runs, dropping empty
words. -/
def pySplitWs (l : List Char) : List (List Char) :=
  pySplitWsGo l []

/-- `Parser._extract_price` (parser.py lines 302-308): join all stripped
strings after the first, search the price pattern, and normalise internal
whitespace of the match; the sentinel is returned when nothing matches. -/
def extract_price (text_nodes : List String) : String :=
  let content :=
    if text_nodes.length > 1 then String.intercalate " " (text_nodes.drop 1) else ""
  match searchPrice content.data with
  | none => "Цена не указана"
  | some m => String.intercalate " " ((pySplitWs m).map String.mk)

/-! #### Gallery and detail-page documents -/

/-- An `<img>` tag as read by the gallery parser: its `data-origin`,
`data-src` and `src` attributes. -/
structure ImgTag where
  dataOrigin : Option String := none
  dataSrc : Option String := none
  src : Option String := none
deriving DecidableEq, Repr

/-- The nodes `_parse_gallery_images` selects from a detail page:
`anchorHrefs` are the `href` attributes of `figure.pswipe-gallery-element
a[href]`, `photoImgs` the `<img>` tags of `.b-lot-media__photo img,
.lot-photo__item img, .b-lot-media__gallery img`, in document order. -/
structure GalleryDoc where
  anchorHrefs : List String
  photoImgs : List ImgTag
deriving DecidableEq, Repr

/-- `Parser._parse_gallery_images` (parser.py lines 352-377): lightbox anchor
hrefs first; if none normalise, fall back to the photo-container images using
`data-origin`/`data-src` before `src`; deduplicate preserving first-seen
order. -/
def parse_gallery_images (doc : GalleryDoc) (base_url : String) : List String :=
  let anchorUrls :=
    (doc.anchorHrefs.map (fun h => normalize_media_url (pyStrip h) (some base_url))).filter
      (fun s => s ≠ "")
  let urls :=
    if anchorUrls.isEmpty then
      (doc.photoImgs.map (fun img =>
        normalize_media_url ((pyOr2 (pyOr2 img.dataOrigin img.dataSrc) img.src).getD "")
          (some base_url))).filter (fun s => s ≠ "")
    else anchorUrls
  dedupFirst [] urls

/-- The main price block `.b-lot-control__main` of a detail page: the stripped
text of its nested `.b-lot-control__sub-main` span (if present) and its own
`stripped_strings` sequence. -/
structure PriceMainBlock where
  subMain : Option String
  strippedStrings : List String
deriving DecidableEq, Repr

/-- What `price_tag.parent` offers to the fallback price loop. -/
inductive FallbackParent where
  | noParent
  | parentWithoutSub
  | parentSub (currency : String)
deriving DecidableEq, Repr

/-- One matching tag of the `price_selectors` fallback loop (parser.py lines
220-227), in selector order: its stripped text and what its parent contains. -/
structure FallbackPriceTag where
  text : String
  parent : FallbackParent
deriving DecidableEq, Repr

/-- A `div` inside a `.b-description__item` block. -/
structure DescDiv where
  containsTable : Bool
  isHeading : Bool
  text : String
deriving DecidableEq, Repr

/-- One `.b-description__item` element as `_parse_description_text` reads it. -/
structure DescItem where
  hasTable : Bool
  paragraphTexts : List String
  divTexts : List DescDiv
  wholeText : String
deriving DecidableEq, Repr

/-- A detail page as `parse_single_item_page` reads it.  `title` is the
result of the `h1.b-lot-page__title` / `h1` / `.lot-title` selector chain;
`descTableRows` the rows (as lists of stripped `td` texts) of the
`.b-description table tbody`, `none` when the block or table is missing. -/
structure DetailDoc where
  title : Option String
  priceMain : Option PriceMainBlock
  fallbackPriceTags : List FallbackPriceTag
  descTableRows : Option (List (List String))
  descItems : List DescItem
  gallery : GalleryDoc
  imgFallbacks : List ImgTag
deriving DecidableEq, Repr

/-- The main-price branch of `parse_single_item_page` (parser.py lines
199-216): with a `.b-lot-control__main` block whose nested sub-span is a
Belarusian-ruble currency, keep the stripped strings that are not the currency
itself, contain no `справочно` (case-insensitively), no `$` and no `€`, and
return the first such string joined with the currency. -/
def extract_main_price (priceMain : Option PriceMainBlock) : Option String :=
  match priceMain with
  | none => none
  | some pm =>
    match pm.subMain with
    | none => none
    | some currency =>
      if containsStr (pyLower currency) "бел" then
        let priceParts := pm.strippedStrings.filter (fun s =>
          s ≠ currency ∧ containsStr (pyLower s) "справочно" = false ∧
          containsStr s "$" = false ∧ containsStr s "€" = false)
        match priceParts with
        | [] => none
        | p :: _ => some (p ++ " " ++ currency)
      else none

/-- The fallback price loop of `parse_single_item_page` (parser.py lines
218-246): first matching tag whose parent holds a `бел`/`руб` currency span
(joined text), or whose parent is absent and whose own text is a usable
price. -/
def fallback_price : List FallbackPriceTag → Option String
  | [] => none
  | t :: rest =>
    match t.parent with
    | .parentSub currency =>
      if containsStr (pyLower currency) "бел" || containsStr (pyLower currency) "руб" then
        let priceText := t.text ++ " " ++ currency
        if priceText ≠ "" ∧ pyLower priceText ≠ pyLower "Цена не указана" then
          some priceText
        else fallback_price rest
      else fallback_price rest
    | .parentWithoutSub => fallback_price rest
    | .noParent =>
      if t.text ≠ "" ∧ pyLower t.text ≠ pyLower "Цена не указана" then some t.text
      else fallback_price rest

/-- Python dict insertion: replace the value of an existing key in place, or
append a new pair. -/
def dictInsert : List (String × String) → String → String → List (String × String)
  | [], k, v => [(k, v)]
  | e :: rest, k, v =>
    if e.1 = k then (k, v) :: rest else e :: dictInsert rest k v

/-- `Parser._parse_description_table` (parser.py lines 379-401): rows with
exactly two cells and non-empty key and value populate the dict; an empty
dict, like a missing block or table, yields `None`. -/
def parse_description_table (rows : Option (List (List String))) :
    Option (List (String × String)) :=
  match rows with
  | none => none
  | some rs =>
    let table := rs.foldl (fun acc cells =>
      match cells with
      | [k, v] => if k ≠ "" ∧ v ≠ "" then dictInsert acc k v else acc
      | _ => acc) []
    if table.isEmpty then none else some table

/-- `Parser._parse_description_text` (parser.py lines 403-436): for blocks
containing a table, collect non-empty paragraph texts and non-heading,
non-table `div` texts not already collected; for other blocks take the whole
text; join with blank lines. -/
def parse_description_text (items : List DescItem) : Option String :=
  if items.isEmpty then none
  else
    let parts := items.foldl (fun parts item =>
      if item.hasTable then
        let parts := item.paragraphTexts.foldl
          (fun ps t => if t ≠ "" then ps ++ [t] else ps) parts
        item.divTexts.foldl (fun ps d =>
          if ¬ d.containsTable ∧ d.text ≠ "" then
            if ¬ d.isHeading then
              (if d.text ≠ "" ∧ ¬ ps.contains d.text then ps ++ [d.text] else ps)
            else ps
          else ps) parts
      else if item.wholeText ≠ "" then parts ++ [item.wholeText]
      else parts) []
    if parts.isEmpty then none else some (String.intercalate "\n\n" parts)

/-- The image-selector fallback of `parse_single_item_page` (parser.py lines
257-272): `imgFallbacks` holds, in selector order, the first matching tag of
each selector; the first tag whose `data-src`/`src` normalises to a non-empty
url wins. -/
def first_img_fallback : List ImgTag → String → Option String
  | [], _ => none
  | img :: rest, base =>
    let imgSrc := (pyOr2 img.dataSrc img.src).getD ""
    let imgUrl := normalize_media_url imgSrc (some base)
    if imgUrl ≠ "" then some imgUrl else first_img_fallback rest base

/-- The fields `parse_single_item_page` assembles before constructing the
item. -/
structure DetailFields where
  title : String
  price : String
  gallery : List String
  description_table : Option (List (String × String))
  description_text : Option String
deriving DecidableEq, Repr

/-- The extraction pipeline of `parse_single_item_page` (parser.py lines
181-276): require a title; take the main-branch price, falling back to the
selector loop while the sentinel stands; parse the description table and
text; take the gallery, falling back to the single main image; require at
least one image. -/
def detail_pipeline (doc : DetailDoc) (item_url : String) : Option DetailFields :=
  match doc.title with
  | none => none
  | some title =>
    let price0 := (extract_main_price doc.priceMain).getD "Цена не указана"
    let price :=
      if price0 = "Цена не указана" then
        (fallback_price doc.fallbackPriceTags).getD price0
      else price0
    let dtable := parse_description_table doc.descTableRows
    let dtext := parse_description_text doc.descItems
    let gallery0 := parse_gallery_images doc.gallery item_url
    let galleryUrls :=
      if gallery0.isEmpty then
        match first_img_fallback doc.imgFallbacks item_url with
        | some u => [u]
        | none => []
      else gallery0
    if galleryUrls.isEmpty then none
    else some ⟨title, price, galleryUrls, dtable, dtext⟩

/-- The final construction of `parse_single_item_page` (parser.py lines
278-288): `Item(url=..., ..., description_table=..., description_text=...)`.
`models.Item` is a slots dataclass declaring neither keyword, so the call
raises `TypeError`, which the function's own `except Exception` handler turns
into `None`. -/
def construct_item_with_descriptions (_fields : DetailFields) (_item_url : String) :
    PyOutcome Item :=
  .raised

/-- `Parser.parse_single_item_page` (parser.py lines 175-292) at HEAD: the
pipeline's fields feed an item construction that always raises, so the
function returns `None` on every input. -/
def parse_single_item_page (doc : DetailDoc) (item_url : String) : Option Item :=
  match detail_pipeline doc item_url with
  | none => none
  | some fields =>
    match construct_item_with_descriptions fields item_url with
    | .ok item => some item
    | .raised => none

/-! #### Catalogue cards (`parse_items`) -/

/-- An anchor inside a card. -/
structure Anchor where
  href : Option String
  text : String
deriving DecidableEq, Repr

/-- The first `<img>` of a card, with its `data-src`/`src` attributes. -/
structure CardImg where
  dataSrc : Option String := none
  src : Option String := none
deriving DecidableEq, Repr

/-- One `div.item-type-card__card` together with the outcomes of the two
network fetches `parse_items` makes for it: `detailFetch` is the detail page
fetched by `_load_full_item_details` (`none` models an `aiohttp.ClientError`),
`galleryFetch` the refetch by `_load_item_gallery`. -/
structure Card where
  anchors : List Anchor
  imgs : List CardImg
  strippedStrings : List String
  detailFetch : Option DetailDoc
  galleryFetch : Option GalleryDoc
deriving DecidableEq, Repr

/-- The link-tag search of `parse_items` (parser.py line 121): the first
anchor whose `href` is truthy and contains `/lot/`. -/
def find_lot_anchor (anchors : List Anchor) : Option Anchor :=
  anchors.find? (fun a =>
    match a.href with
    | some h => containsStr h "/lot/"
    | none => false)

/-- The per-card body of `parse_items` (parser.py lines 119-170): skip the
card without a lot link, without an image tag, or with an image url that
normalises to nothing; otherwise extract the price and attempt the full detail
load.  At HEAD a successful detail parse is impossible, and were it to
succeed, the enrichment construction `Item(..., description_table=...)` would
raise and the surrounding handler would skip the card; the fallback branch
builds the item from the gallery refetch or the card thumbnail. -/
def parse_card (card : Card) (base : String) : Option Item :=
  match find_lot_anchor card.anchors with
  | none => none
  | some linkTag =>
    let rawLink := linkTag.href.getD ""
    let link := if pyStartsWith rawLink "http" then rawLink else pyUrljoin base rawLink
    let title := linkTag.text
    match card.imgs.head? with
    | none => none
    | some imgTag =>
      let imgUrl := normalize_media_url ((pyOr2 imgTag.dataSrc imgTag.src).getD "") (some link)
      if imgUrl = "" then none
      else
        let price := extract_price card.strippedStrings
        let fullItem :=
          match card.detailFetch with
          | none => none
          | some doc => parse_single_item_page doc link
        match fullItem with
        | some _ => none
        | none =>
          let galleryUrls :=
            match card.galleryFetch with
            | none => []
            | some g => parse_gallery_images g link
          let imageUrls := if galleryUrls.isEmpty then [imgUrl] else galleryUrls
          some (mk_item link title price (imageUrls.headD "") imageUrls)

/-- `Parser.parse_items` (parser.py lines 112-173): parse each card in
document order, skipping the ones whose body yields nothing. -/
def parse_items (cards : List Card) (base_url : Option String) : List Item :=
  let base := base_url.getD BASE_URL
  cards.filterMap (fun card => parse_card card base)

/-! ## Concrete fixtures for the claim theorems -/

/-- A persisted row for the C1 scenario's source page. -/
def c1_row : Row :=
  { url := "https://ay.by/lot/1", title := "Lot 1", price := "100 руб"
    img_url := "https://img/1", gallery := ["https://img/1"]
    description_table := none, description_text := none
    source_url := "https://coins.ay.by/page", created_at := 0 }

/-- C1 scenario database: one known url for the source. -/
def c1_db : List Row := [c1_row]

/-- C1 scenario: the already-known listing, rescraped. -/
def c1_item_known : Item :=
  ⟨"https://ay.by/lot/1", "Lot 1", "100 руб", "https://img/1", ["https://img/1"]⟩

/-- C1 scenario: a newly appeared listing. -/
def c1_item_new : Item :=
  ⟨"https://ay.by/lot/2", "Lot 2", "200 руб", "https://img/2", ["https://img/2"]⟩

/-- C1 witness: a new listing over the intended item model. -/
def c1_itemD : ItemD :=
  { url := "https://ay.by/lot/2", title := "Lot 2", price := "200 руб"
    img_url := "https://img/2", image_urls := ["https://img/2"] }

/-- C2 scenario: a first-run listing. -/
def c2_item : Item :=
  ⟨"https://ay.by/lot/3", "Lot 3", "300 руб", "https://img/3", ["https://img/3"]⟩

/-- C2 witness: a first-run listing over the intended item model. -/
def c2_itemD : ItemD :=
  { url := "https://ay.by/lot/3", title := "Lot 3", price := "300 руб"
    img_url := "https://img/3", image_urls := ["https://img/3"] }


/-- C6 witness: a listing with fifteen gallery images. -/
def c6_item : Item :=
  ⟨"https://ay.by/lot/6", "Lot 6", "600 руб", "https://i/1",
    ["https://i/1", "https://i/2", "https://i/3", "https://i/4", "https://i/5",
     "https://i/6", "https://i/7", "https://i/8", "https://i/9", "https://i/10",
     "https://i/11", "https://i/12", "https://i/13", "https://i/14", "https://i/15"]⟩

/-- C7: the sibling strings of the reference test page's main price block. -/
def c7_rest : List String :=
  ["119,68", "$", "103,57", "€", "9571,31", "руб.", "Справочно по курсу НБРБ"]

/-- C7: the detail page of tests/test_parser.py::test_parse_single_item_page —
title, a Belarusian-ruble main price with USD/EUR conversions and a reference
rate annotation, and a two-image lightbox gallery. -/
def c7_doc : DetailDoc :=
  { title := some "1 рубль 1924 года"
    priceMain := some ⟨some "бел. руб.", "355,00" :: c7_rest⟩
    fallbackPriceTags := []
    descTableRows := none
    descItems := []
    gallery := ⟨["/upload/images/lot1-full.jpg", "/upload/images/lot1-full2.jpg"], []⟩
    imgFallbacks := [] }

/-- C8: a complete catalogue card (lot link, image, price strings), whose
detail fetch and gallery refetch both fail. -/
def c8_complete : Card :=
  { anchors := [⟨some "https://ay.by/lot/item2", "Item 2"⟩]
    imgs := [{ src := some "https://example.com/img2.jpg" }]
    strippedStrings := ["Item 2", "200,00", "бел. руб."]
    detailFetch := none
    galleryFetch := none }

/-- C8: the listing the complete card yields. -/
def c8_expected : Item :=
  ⟨"https://ay.by/lot/item2", "Item 2", "200,00 бел. руб.",
    "https://example.com/img2.jpg", ["https://example.com/img2.jpg"]⟩

/-- C8: an incomplete card — it has a lot link but no image tag. -/
def c8_incomplete : Card :=
  { anchors := [⟨some "https://ay.by/lot/item1", "Item 1"⟩]
    imgs := []
    strippedStrings := ["Item 1"]
    detailFetch := none
    galleryFetch := none }

/-- C8: a card with no lot link at all. -/
def c8_nolink : Card :=
  { anchors := [⟨some "https://ay.by/about", "About"⟩]
    imgs := [{ src := some "https://example.com/about.jpg" }]
    strippedStrings := ["About"]
    detailFetch := none
    galleryFetch := none }

/-- C8: a two-image gallery obtained by the gallery refetch. -/
def c8_gal : GalleryDoc := ⟨["https://cdn/1.jpg", "https://cdn/2.jpg"], []⟩

/-- C8: a complete card whose detail fetch fails but whose gallery refetch
succeeds. -/
def c8_gallery_card : Card :=
  { anchors := [⟨some "https://ay.by/lot/item9", "Item 9"⟩]
    imgs := [{ src := some "https://example.com/t9.jpg" }]
    strippedStrings := ["Item 9"]
    detailFetch := none
    galleryFetch := some c8_gal }

/-! ## Helper lemmas -/

/-- Setting a key makes it readable: `_get_meta` after `_set_meta`. -/
theorem get_meta_set_meta_same (kv : MetaKV) (key value : String) :
    get_meta (set_meta kv key value) key = some value := by
  induction kv with
  | nil => simp [set_meta, get_meta, List.find?]
  | cons e rest ih =>
    by_cases he : e.1 = key
    · simp [set_meta, he, get_meta, List.find?]
    · simp only [set_meta, he, if_false]
      simpa [get_meta, List.find?, he] using ih

/-- `splitAmp` never returns the empty list of segments. -/
theorem splitAmp_ne_nil (l : List Char) : splitAmp l ≠ [] := by
  cases l with
  | nil => simp [splitAmp]
  | cons c rest =>
    simp only [splitAmp]
    cases splitAmp rest with
    | nil => simp
    | cons seg segs =>
      by_cases hc : c = '&' <;> simp [hc]

/-- Segments produced by `splitAmp` contain no separator. -/
theorem amp_not_mem_splitAmp (l : List Char) :
    ∀ seg ∈ splitAmp l, '&' ∉ seg := by
  induction l with
  | nil => intro seg hseg; simp [splitAmp] at hseg; simp [hseg]
  | cons c rest ih =>
    intro seg hseg
    rcases hrec : splitAmp rest with _ | ⟨s, ss⟩
    · exact absurd hrec (splitAmp_ne_nil rest)
    · have hstep : splitAmp (c :: rest) =
          if c = '&' then [] :: s :: ss else (c :: s) :: ss := by
        simp only [splitAmp, hrec]
      rw [hstep] at hseg
      by_cases hc : c = '&'
      · rw [if_pos hc] at hseg
        rcases List.mem_cons.mp hseg with h | h
        · simp [h]
        · exact ih seg (hrec ▸ h)
      · rw [if_neg hc] at hseg
        rcases List.mem_cons.mp hseg with h | h
        · subst h
          intro hmem
          rcases List.mem_cons.mp hmem with h1 | h1
          · exact hc h1.symm
          · exact ih s (hrec ▸ List.mem_cons_self s ss) h1
        · exact ih seg (hrec ▸ List.mem_cons_of_mem s h)

/-- A separator-free character list is a single segment. -/
theorem splitAmp_single (s : List Char) (hs : '&' ∉ s) : splitAmp s = [s] := by
  induction s with
  | nil => simp [splitAmp]
  | cons c rest ih =>
    have hc : c ≠ '&' := fun h => hs (h ▸ List.mem_cons_self c rest)
    have hrest : '&' ∉ rest := fun h => hs (List.mem_cons_of_mem c h)
    simp [splitAmp, ih hrest, hc]

/-- Splitting past a leading separator-free segment. -/
theorem splitAmp_append_amp (s l : List Char) (hs : '&' ∉ s) :
    splitAmp (s ++ '&' :: l) = s :: splitAmp l := by
  induction s with
  | nil =>
    simp only [List.nil_append, splitAmp]
    rcases hrec : splitAmp l with _ | ⟨seg, segs⟩
    · exact absurd hrec (splitAmp_ne_nil l)
    · simp
  | cons c rest ih =>
    have hc : c ≠ '&' := fun h => hs (h ▸ List.mem_cons_self c rest)
    have hrest : '&' ∉ rest := fun h => hs (List.mem_cons_of_mem c h)
    simp [splitAmp, ih hrest, hc]

/-- `splitAmp` recovers the segments that `joinAmp` assembled, when no segment
contains the separator. -/
theorem splitAmp_joinAmp (segs : List (List Char)) (hne : segs ≠ [])
    (hfree : ∀ s ∈ segs, '&' ∉ s) : splitAmp (joinAmp segs) = segs := by
  induction segs with
  | nil => exact absurd rfl hne
  | cons s rest ih =>
    cases rest with
    | nil =>
      simpa [joinAmp] using splitAmp_single s (hfree s (List.mem_cons_self s []))
    | cons s2 rest2 =>
      have hs : '&' ∉ s := hfree s (List.mem_cons_self s (s2 :: rest2))
      have hfree2 : ∀ t ∈ s2 :: rest2, '&' ∉ t := fun t ht =>
        hfree t (List.mem_cons_of_mem s ht)
      have : joinAmp (s :: s2 :: rest2) = s ++ '&' :: joinAmp (s2 :: rest2) := rfl
      rw [this, splitAmp_append_amp s _ hs, ih (by simp) hfree2]

/-- `joinAmp` of a nonempty list of nonempty segments is nonempty. -/
theorem joinAmp_ne_nil (segs : List (List Char)) (hne : segs ≠ [])
    (hseg : ∀ s ∈ segs, s ≠ []) : joinAmp segs ≠ [] := by
  cases segs with
  | nil => exact absurd rfl hne
  | cons s rest =>
    cases rest with
    | nil => simpa [joinAmp] using hseg s (List.mem_cons_self s [])
    | cons s2 rest2 =>
      have : joinAmp (s :: s2 :: rest2) = s ++ '&' :: joinAmp (s2 :: rest2) := rfl
      rw [this]
      rcases hs : s with _ | _
      · exact absurd rfl (hs ▸ hseg s (List.mem_cons_self s (s2 :: rest2)))
      · simp

/-- Membership characterisation for `get_known_urls`. -/
theorem mem_get_known_urls (db : List Row) (s u : String) :
    u ∈ get_known_urls db s ↔ ∃ r ∈ db, r.source_url = s ∧ r.url = u := by
  simp only [get_known_urls, List.mem_map, List.mem_filter]
  constructor
  · rintro ⟨r, ⟨hr, hs⟩, hu⟩
    exact ⟨r, hr, by simpa using hs, hu⟩
  · rintro ⟨r, hr, hs, hu⟩
    exact ⟨r, ⟨hr, by simpa using hs⟩, hu⟩

/-- After one upsert of a row for source `s`, the known urls of `s` are the
row's url together with the previous ones. -/
theorem mem_known_upsert (db : List Row) (r : Row) (s u : String)
    (hr : r.source_url = s) :
    u ∈ get_known_urls (upsert_row db r) s ↔ u = r.url ∨ u ∈ get_known_urls db s := by
  rw [mem_get_known_urls, mem_get_known_urls]
  unfold upsert_row
  by_cases hex : db.any (fun x => x.url = r.url) = true
  · rw [if_pos hex]
    constructor
    · rintro ⟨x, hx, hxs, hxu⟩
      rcases List.mem_map.mp hx with ⟨y, hy, hyx⟩
      by_cases hyu : y.url = r.url
      · left
        rw [← hxu, ← hyx]
        simp [hyu]
      · right
        refine ⟨y, hy, ?_, ?_⟩
        · rw [← hyx] at hxs; simpa [hyu] using hxs
        · rw [← hyx] at hxu; simpa [hyu] using hxu
    · rintro (h | h)
      · rcases List.any_eq_true.mp hex with ⟨y, hy, hyu⟩
        refine ⟨{ r with created_at := y.created_at }, ?_, hr, h.symm⟩
        exact List.mem_map.mpr ⟨y, hy, by simp [of_decide_eq_true hyu]⟩
      · rcases h with ⟨y, hy, hys, hyu⟩
        by_cases hyr : y.url = r.url
        · refine ⟨{ r with created_at := y.created_at }, ?_, hr, by simp [← hyu, hyr]⟩
          exact List.mem_map.mpr ⟨y, hy, by simp [hyr]⟩
        · exact ⟨y, List.mem_map.mpr ⟨y, hy, by simp [hyr]⟩, hys, hyu⟩
  · rw [if_neg hex]
    constructor
    · rintro ⟨x, hx, hxs, hxu⟩
      rcases List.mem_append.mp hx with h | h
      · exact Or.inr ⟨x, h, hxs, hxu⟩
      · left
        simp only [List.mem_singleton] at h
        rw [← hxu, h]
    · rintro (h | h)
      · exact ⟨r, List.mem_append.mpr (Or.inr (List.mem_singleton.mpr rfl)), hr, h.symm⟩
      · rcases h with ⟨y, hy, hys, hyu⟩
        exact ⟨y, List.mem_append.mpr (Or.inl hy), hys, hyu⟩

/-- Saving a scrape for source `s` makes the known urls of `s` the union of
the previous known urls and the scraped urls. -/
theorem mem_known_save_fixed (items : List ItemD) (s : String) (ts : Nat)
    (db : List Row) (u : String) :
    u ∈ get_known_urls (save_items_fixed items s ts db) s ↔
      u ∈ get_known_urls db s ∨ u ∈ items.map ItemD.url := by
  induction items generalizing db with
  | nil => simp [save_items_fixed]
  | cons item rest ih =>
    have hstep : save_items_fixed (item :: rest) s ts db =
        save_items_fixed rest s ts (upsert_row db (row_of_item item s ts)) := rfl
    rw [hstep, ih, mem_known_upsert db (row_of_item item s ts) s u rfl]
    simp only [row_of_item, List.map_cons, List.mem_cons]
    tauto

/-- At HEAD `parse_single_item_page` returns `None` for every document: every
successful path ends in the raising item construction. -/
theorem parse_single_item_page_none (doc : DetailDoc) (item_url : String) :
    parse_single_item_page doc item_url = none := by
  unfold parse_single_item_page
  cases detail_pipeline doc item_url <;> rfl

/-- `dedupFirst` only returns elements of its input. -/
theorem mem_dedupFirst (seen l : List String) (u : String)
    (h : u ∈ dedupFirst seen l) : u ∈ l := by
  induction l generalizing seen with
  | nil => simp [dedupFirst] at h
  | cons x rest ih =>
    unfold dedupFirst at h
    by_cases hx : seen.contains x = true
    · rw [if_pos hx] at h
      exact List.mem_cons_of_mem x (ih seen h)
    · rw [if_neg hx] at h
      rcases List.mem_cons.mp h with h1 | h1
      · exact h1 ▸ List.mem_cons_self x rest
      · exact List.mem_cons_of_mem x (ih (x :: seen) h1)

/-- Gallery urls are never the empty string. -/
theorem gallery_urls_ne_empty (g : GalleryDoc) (base u : String)
    (h : u ∈ parse_gallery_images g base) : u ≠ "" := by
  unfold parse_gallery_images at h
  have h2 := mem_dedupFirst _ _ _ h
  by_cases ha :
      ((g.anchorHrefs.map (fun hh => normalize_media_url (pyStrip hh) (some base))).filter
        (fun s => s ≠ "")).isEmpty
  · simp only [ha, if_true] at h2
    have := List.of_mem_filter h2
    simpa using this
  · simp only [ha, if_false] at h2
    have := List.of_mem_filter h2
    simpa using this

/-- The media urls of a built media group are its input urls. -/
theorem build_media_group_map_media (l : List String) (cap : String) (pm : Option String) :
    (build_media_group l cap pm).map (fun m => m.media) = l := by
  cases l with
  | nil => rfl
  | cons a rest =>
    simp only [build_media_group, List.map_cons, List.map_map]
    have : ((fun m : MediaPhoto => m.media) ∘ fun u => MediaPhoto.mk u none none) =
        fun u => u := rfl
    rw [this, List.map_id']

/-- A built media group has one entry per input url. -/
theorem build_media_group_length (l : List String) (cap : String) (pm : Option String) :
    (build_media_group l cap pm).length = l.length := by
  cases l with
  | nil => rfl
  | cons a rest => simp [build_media_group]

/-- Entries of a built media group after the first carry no caption. -/
theorem build_media_group_tail_caption (l : List String) (cap : String)
    (pm : Option String) : ∀ m ∈ (build_media_group l cap pm).tail, m.caption = none := by
  cases l with
  | nil => intro m hm; simp [build_media_group] at hm
  | cons a rest =>
    intro m hm
    simp only [build_media_group, List.tail_cons, List.mem_map] at hm
    rcases hm with ⟨u, _, rfl⟩
    rfl

/-- With more than one media url, `_send_to_chat` sends an album of the first
ten urls, the first entry carrying the caption and the rest none. -/
theorem send_to_chat_album (urls : List String) (cap : String) (pm : Option String)
    (hlen : 1 < urls.length) :
    ∃ media, send_to_chat urls cap pm = .mediaGroup media ∧
      media.map (fun m => m.media) = urls.take 10 ∧
      media.length = min 10 urls.length ∧
      media.head? = some ⟨urls.headD "", some cap, pm⟩ ∧
      ∀ m ∈ media.tail, m.caption = none := by
  obtain ⟨a, rest, rfl⟩ : ∃ a rest, urls = a :: rest := by
    cases urls with
    | nil => simp at hlen
    | cons a rest => exact ⟨a, rest, rfl⟩
  refine ⟨build_media_group ((a :: rest).take 10) cap pm, ?_,
    build_media_group_map_media _ _ _, ?_, ?_, build_media_group_tail_caption _ _ _⟩
  · unfold send_to_chat
    rw [if_pos hlen]
  · rw [build_media_group_length, List.length_take]
  · simp [List.take_succ_cons, build_media_group]

/-- `mk_item` on a non-empty url list whose head is non-empty leaves both
image fields as given. -/
theorem mk_item_nonempty_head (url title price g0 : String) (grest : List String)
    (hg0 : g0 ≠ "") :
    mk_item url title price ((g0 :: grest).headD "") (g0 :: grest) =
      ⟨url, title, price, g0, g0 :: grest⟩ := by
  unfold mk_item
  simp [hg0]

/-- A card without a lot link is skipped. -/
theorem parse_card_no_anchor (card : Card) (base : String)
    (hfind : find_lot_anchor card.anchors = none) :
    parse_card card base = none := by
  unfold parse_card
  rw [hfind]

/-- A card without an image tag is skipped. -/
theorem parse_card_no_img (card : Card) (base : String) (himgs : card.imgs = []) :
    parse_card card base = none := by
  unfold parse_card
  cases hfind : find_lot_anchor card.anchors with
  | none => rfl
  | some a => simp [himgs]

/-- Full evaluation of a card body under the fallback path: the detail load
never yields an item at HEAD, so the listing is built from the gallery refetch
when it has urls, else from the thumbnail. -/
theorem parse_card_eval (anchors : List Anchor) (a : Anchor) (h : String)
    (imgTag : CardImg) (imgs : List CardImg) (ss : List String)
    (df : Option DetailDoc) (gf : Option GalleryDoc)
    (base link imgUrl : String) (galleryUrls : List String)
    (hfind : find_lot_anchor anchors = some a)
    (hhref : a.href = some h)
    (hlink : link = if pyStartsWith h "http" then h else pyUrljoin base h)
    (himgUrl : imgUrl =
      normalize_media_url ((pyOr2 imgTag.dataSrc imgTag.src).getD "") (some link))
    (hne : imgUrl ≠ "")
    (hgal : galleryUrls =
      match gf with
      | none => []
      | some g => parse_gallery_images g link) :
    parse_card ⟨anchors, imgTag :: imgs, ss, df, gf⟩ base =
      some (mk_item link a.text (extract_price ss)
        ((if galleryUrls.isEmpty then [imgUrl] else galleryUrls).headD "")
        (if galleryUrls.isEmpty then [imgUrl] else galleryUrls)) := by
  unfold parse_card
  rw [hfind]
  simp only [hhref, Option.getD_some, List.head?_cons]
  rw [← hlink, ← himgUrl, if_neg hne]
  have hfull : (match df with
      | none => none
      | some doc => parse_single_item_page doc link) = (none : Option Item) := by
    cases df with
    | none => rfl
    | some doc => exact parse_single_item_page_none doc link
  rw [hfull, ← hgal]

/-- `_apply_order_to_url` only ever touches the query component. -/
theorem apply_order_fields (parts : UrlParts) (order : Option String) :
    (apply_order_to_url parts order).scheme = parts.scheme ∧
    (apply_order_to_url parts order).netloc = parts.netloc ∧
    (apply_order_to_url parts order).path = parts.path ∧
    (apply_order_to_url parts order).fragment = parts.fragment := by
  unfold apply_order_to_url
  by_cases hq : parts.query = ""
  · rw [if_pos hq]
    cases order <;> exact ⟨rfl, rfl, rfl, rfl⟩
  · rw [if_neg hq]
    cases order <;> exact ⟨rfl, rfl, rfl, rfl⟩

/-- The query segments after `_apply_order_to_url`: the original segments
minus the `order`-keyed ones, with the new `order` segment appended when an
order is given.  Requires a query without empty segments (no stray `&&` or
trailing `&`) and an order whose encoding is non-empty and `&`-free. -/
theorem apply_order_segments (parts : UrlParts) (order : Option String)
    (hwf : parts.query = "" ∨ [] ∉ splitAmp parts.query.data)
    (hfree_o : ∀ o, order = some o → '&' ∉ ("order=" ++ quotePlus o).data)
    (hne_o : ∀ o, order = some o → ("order=" ++ quotePlus o).data ≠ []) :
    querySegments (apply_order_to_url parts order).query =
      (querySegments parts.query).filter
        (fun seg => seg.isEmpty || segKey seg ≠ "order".data)
      ++ orderSegment order := by
  unfold apply_order_to_url
  by_cases hq : parts.query = ""
  · rw [if_pos hq]
    cases order with
    | none =>
      simp [querySegments, hq, orderSegment]
    | some o =>
      have hfo := hfree_o o rfl
      have hno := hne_o o rfl
      have h1 : querySegments ("order=" ++ quotePlus o) = [("order=" ++ quotePlus o).data] := by
        unfold querySegments
        rw [if_neg (fun hcon => hno (by simpa using congrArg String.data hcon))]
        exact splitAmp_single _ hfo
      show querySegments ("order=" ++ quotePlus o) =
        (querySegments parts.query).filter
          (fun seg => seg.isEmpty || segKey seg ≠ "order".data) ++
          [("order=" ++ quotePlus o).data]
      rw [h1, hq]
      simp [querySegments]
  · rw [if_neg hq]
    have hnonil : [] ∉ splitAmp parts.query.data := hwf.resolve_left hq
    have hfree' : ∀ s ∈ (splitAmp parts.query.data).filter
        (fun seg => seg.isEmpty || segKey seg ≠ "order".data), '&' ∉ s :=
      fun s hs => amp_not_mem_splitAmp parts.query.data s (List.mem_of_mem_filter hs)
    have hne' : ∀ s ∈ (splitAmp parts.query.data).filter
        (fun seg => seg.isEmpty || segKey seg ≠ "order".data), s ≠ [] :=
      fun s hs h0 => hnonil (h0 ▸ List.mem_of_mem_filter hs)
    have hrhs : querySegments parts.query = splitAmp parts.query.data := by
      unfold querySegments
      rw [if_neg hq]
    cases order with
    | none =>
      show querySegments ⟨joinAmp ((splitAmp parts.query.data).filter
          (fun seg => seg.isEmpty || segKey seg ≠ "order".data))⟩ =
        (querySegments parts.query).filter
          (fun seg => seg.isEmpty || segKey seg ≠ "order".data) ++ []
      rw [hrhs, List.append_nil]
      by_cases hp : (splitAmp parts.query.data).filter
          (fun seg => seg.isEmpty || segKey seg ≠ "order".data) = []
      · rw [hp]
        rfl
      · have hjoin_ne := joinAmp_ne_nil _ hp hne'
        unfold querySegments
        rw [if_neg (fun hcon => hjoin_ne (by simpa using congrArg String.data hcon))]
        exact splitAmp_joinAmp _ hp hfree'
    | some o =>
      have hfo := hfree_o o rfl
      have hno := hne_o o rfl
      show querySegments ⟨joinAmp ((splitAmp parts.query.data).filter
          (fun seg => seg.isEmpty || segKey seg ≠ "order".data)
          ++ [("order=" ++ quotePlus o).data])⟩ =
        (querySegments parts.query).filter
          (fun seg => seg.isEmpty || segKey seg ≠ "order".data) ++
          [("order=" ++ quotePlus o).data]
      rw [hrhs]
      have hfree2 : ∀ s ∈ (splitAmp parts.query.data).filter
          (fun seg => seg.isEmpty || segKey seg ≠ "order".data)
          ++ [("order=" ++ quotePlus o).data], '&' ∉ s := by
        intro s hs
        rcases List.mem_append.mp hs with h | h
        · exact hfree' s h
        · simp only [List.mem_singleton] at h
          subst h
          exact hfo
      have hne2 : ∀ s ∈ (splitAmp parts.query.data).filter
          (fun seg => seg.isEmpty || segKey seg ≠ "order".data)
          ++ [("order=" ++ quotePlus o).data], s ≠ [] := by
        intro s hs
        rcases List.mem_append.mp hs with h | h
        · exact hne' s h
        · simp only [List.mem_singleton] at h
          subst h
          exact hno
      have happ_ne : (splitAmp parts.query.data).filter
          (fun seg => seg.isEmpty || segKey seg ≠ "order".data)
          ++ [("order=" ++ quotePlus o).data] ≠ [] := by simp
      have hjoin_ne := joinAmp_ne_nil _ happ_ne hne2
      unfold querySegments
      rw [if_neg (fun hcon => hjoin_ne (by simpa using congrArg String.data hcon))]
      exact splitAmp_joinAmp _ happ_ne hfree2

/-! ## Claim theorems -/

/-- C10: for every `Item` constructed through its public constructor, if
`image_urls` was provided non-empty while `img_url` was empty, `img_url` ends
up equal to the first element of `image_urls`; if `img_url` was provided
non-empty while `image_urls` was empty, `image_urls` ends up the one-element
sequence containing `img_url`; and when all provided image urls are non-empty
strings, the resulting `img_url` is non-empty exactly when the resulting
`image_urls` is non-empty. -/
theorem item_post_init_image_invariants (url title price img_url : String)
    (image_urls : List String) (himgs : image_urls.all (fun u => u ≠ "") = true) :
    (image_urls ≠ [] → img_url = "" →
      (mk_item url title price img_url image_urls).img_url = image_urls.headD "") ∧
    (img_url ≠ "" → image_urls = [] →
      (mk_item url title price img_url image_urls).image_urls = [img_url]) ∧
    ((mk_item url title price img_url image_urls).img_url ≠ "" ↔
      (mk_item url title price img_url image_urls).image_urls ≠ []) := by
  have himgs' : ∀ u ∈ image_urls, u ≠ "" := by
    intro u hu
    have := List.all_eq_true.mp himgs u hu
    simpa using this
  unfold mk_item
  split_ifs with h1 h2
  · obtain ⟨hne, _⟩ := h1
    obtain ⟨a, l, rfl⟩ : ∃ a l, image_urls = a :: l := by
      cases image_urls with
      | nil => simp at hne
      | cons a l => exact ⟨a, l, rfl⟩
    refine ⟨fun _ _ => rfl, fun _ habs => by simp at habs, ?_⟩
    have ha : a ≠ "" := himgs' a (List.mem_cons_self a l)
    simp [ha]
  · obtain ⟨hiu, hempty⟩ := h2
    have hnil : image_urls = [] := by
      cases image_urls with
      | nil => rfl
      | cons a l => simp at hempty
    refine ⟨fun hne _ => absurd hnil hne, fun _ _ => rfl, by simp [hiu]⟩
  · refine ⟨?_, ?_, ?_⟩
    · intro hne hempty
      refine absurd ⟨?_, hempty⟩ h1
      cases image_urls with
      | nil => exact absurd rfl hne
      | cons a l => simp
    · intro hiu hnil
      exact absurd ⟨hiu, by simp [hnil]⟩ h2
    · by_cases himg : img_url = ""
      · have hempty : image_urls.isEmpty = true := by
          by_contra hne
          exact h1 ⟨hne, himg⟩
        have hnil : image_urls = [] := by
          cases image_urls with
          | nil => rfl
          | cons a l => simp at hempty
        simp [himg, hnil]
      · have hne2 : ¬ image_urls.isEmpty = true := fun he => h2 ⟨himg, he⟩
        have hnil : image_urls ≠ [] := by
          cases image_urls with
          | nil => simp at hne2
          | cons a l => simp
        simp [himg, hnil]

/-- Witness for C10 at a concrete input. -/
theorem item_post_init_image_invariants_witness :
    ((["https://a/1.jpg", "https://a/2.jpg"] : List String).all (fun u => u ≠ "") = true) ∧
    ((["https://a/1.jpg", "https://a/2.jpg"] : List String) ≠ [] → "" = "" →
      (mk_item "https://a/lot" "t" "p" "" ["https://a/1.jpg", "https://a/2.jpg"]).img_url =
        (["https://a/1.jpg", "https://a/2.jpg"] : List String).headD "") ∧
    ("" ≠ "" → (["https://a/1.jpg", "https://a/2.jpg"] : List String) = [] →
      (mk_item "https://a/lot" "t" "p" "" ["https://a/1.jpg", "https://a/2.jpg"]).image_urls = [""]) ∧
    ((mk_item "https://a/lot" "t" "p" "" ["https://a/1.jpg", "https://a/2.jpg"]).img_url ≠ "" ↔
      (mk_item "https://a/lot" "t" "p" "" ["https://a/1.jpg", "https://a/2.jpg"]).image_urls ≠ []) :=
  ⟨by decide,
    item_post_init_image_invariants "https://a/lot" "t" "p" ""
      ["https://a/1.jpg", "https://a/2.jpg"] (by decide)⟩

/-- C1: at HEAD, a steady-state check over a non-empty history raises
`AttributeError` (the caption builder and `save_items` read attributes the
slots dataclass `Item` lacks): nothing is notified and nothing persisted —
the diff law fails on the code.  Over the intended item model, matching the
repo's own monitor tests, the law holds: the notified items are exactly the
scraped items whose url is absent from the history, in scrape order, and the
known-url set afterwards is the union of the history and the scraped urls. -/
theorem monitor_diff_law :
    check_url c1_db false [c1_item_known, c1_item_new] "https://coins.ay.by/page" = .raised ∧
    ∀ (db : List Row) (items : List ItemD) (s : String) (ts : Nat),
      items ≠ [] → get_known_urls db s ≠ [] →
      ((check_url_fixed db false items s ts).2.1 =
          items.filter (fun it => ¬ (get_known_urls db s).contains it.url) ∧
        (check_url_fixed db false items s ts).2.2 = true ∧
        ∀ u, u ∈ get_known_urls (check_url_fixed db false items s ts).1 s ↔
          u ∈ get_known_urls db s ∨ u ∈ items.map ItemD.url) := by
  constructor
  · rfl
  · intro db items s ts hitems hknown
    have hempty : items.isEmpty = false := by
      cases items with
      | nil => exact absurd rfl hitems
      | cons a l => rfl
    have hkempty : (get_known_urls db s).isEmpty = false := by
      cases hk : get_known_urls db s with
      | nil => exact absurd hk hknown
      | cons a l => rfl
    refine ⟨?_, ?_, ?_⟩
    · simp [check_url_fixed, hempty, hkempty]
    · simp [check_url_fixed, hempty, hkempty]
    · intro u
      simp [check_url_fixed, hempty, hkempty, mem_known_save_fixed]

/-- Witness for C1's steady-state law at a concrete database and scrape. -/
theorem monitor_diff_law_witness :
    (([c1_itemD] : List ItemD) ≠ [] ∧
      get_known_urls c1_db "https://coins.ay.by/page" ≠ []) ∧
    ((check_url_fixed c1_db false [c1_itemD] "https://coins.ay.by/page" 1).2.1 =
        [c1_itemD].filter
          (fun it => ¬ (get_known_urls c1_db "https://coins.ay.by/page").contains it.url) ∧
      (check_url_fixed c1_db false [c1_itemD] "https://coins.ay.by/page" 1).2.2 = true ∧
      ∀ u, u ∈ get_known_urls
          (check_url_fixed c1_db false [c1_itemD] "https://coins.ay.by/page" 1).1
          "https://coins.ay.by/page" ↔
        u ∈ get_known_urls c1_db "https://coins.ay.by/page" ∨
        u ∈ ([c1_itemD] : List ItemD).map ItemD.url) :=
  ⟨⟨by decide, by decide⟩,
    monitor_diff_law.2 c1_db [c1_itemD] "https://coins.ay.by/page" 1
      (by decide) (by decide)⟩

/-- C2: at HEAD, the first successful check of an unseeded source raises
`AttributeError` inside `save_items` and the baseline is never persisted —
the first-run law fails on the code.  Over the intended item model, matching
the repo's own monitor tests, one check of an empty history persists exactly
the scraped urls and notifies nothing. -/
theorem monitor_first_run_law :
    check_url [] false [c2_item] "https://coins.ay.by/page" = .raised ∧
    ∀ (db : List Row) (items : List ItemD) (s : String) (ts : Nat),
      get_known_urls db s = [] → items ≠ [] →
      ((check_url_fixed db false items s ts).2.1 = [] ∧
        (check_url_fixed db false items s ts).2.2 = true ∧
        ∀ u, u ∈ get_known_urls (check_url_fixed db false items s ts).1 s ↔
          u ∈ items.map ItemD.url) := by
  constructor
  · rfl
  · intro db items s ts hknown hitems
    have hempty : items.isEmpty = false := by
      cases items with
      | nil => exact absurd rfl hitems
      | cons a l => rfl
    have hkempty : (get_known_urls db s).isEmpty = true := by
      rw [hknown]
      rfl
    refine ⟨?_, ?_, ?_⟩
    · simp [check_url_fixed, hempty, hkempty]
    · simp [check_url_fixed, hempty, hkempty]
    · intro u
      simp [check_url_fixed, hempty, hkempty, mem_known_save_fixed, hknown]

/-- Witness for C2's first-run law at a concrete empty history. -/
theorem monitor_first_run_law_witness :
    (get_known_urls [] "https://coins.ay.by/page" = [] ∧
      ([c2_itemD] : List ItemD) ≠ []) ∧
    ((check_url_fixed [] false [c2_itemD] "https://coins.ay.by/page" 1).2.1 = [] ∧
      (check_url_fixed [] false [c2_itemD] "https://coins.ay.by/page" 1).2.2 = true ∧
      ∀ u, u ∈ get_known_urls
          (check_url_fixed [] false [c2_itemD] "https://coins.ay.by/page" 1).1
          "https://coins.ay.by/page" ↔
        u ∈ ([c2_itemD] : List ItemD).map ItemD.url) :=
  ⟨⟨by decide, by decide⟩,
    monitor_first_run_law.2 [] [c2_itemD] "https://coins.ay.by/page" 1
      (by decide) (by decide)⟩

/-- C3: when the fetcher's error flag is set, `_check_url` persists nothing
and sends zero notifications, whatever was parsed; a successful fetch that
yields zero listings is likewise skipped without persistence — the two cases
being told apart by the flag, not by absence of content. -/
theorem monitor_skips_failed_fetch :
    (∀ (db : List Row) (items : List Item) (s : String),
      check_url db true items s = .ok (db, 0, false)) ∧
    (∀ (db : List Row) (s : String),
      check_url db false [] s = .ok (db, 0, false)) := by
  constructor
  · intro db items s
    simp [check_url]
  · intro db s
    simp [check_url]

/-- C4: `get_page_content` performs no retry at all: a GET answered with the
retryable status 503 is reported as a failure even when a second attempt would
succeed, and in general the outcome depends only on the first attempt —
`REQUEST_MAX_RETRIES` and `REQUEST_BACKOFF_FACTOR` are never consulted by any
fetch path, contradicting the claimed transparent exponential-backoff
retries. -/
theorem fetch_no_retry :
    get_page_content (fun i => if i = 0 then .status 503 else .ok "<html/>") =
      ⟨none, true, some (.httpError 503)⟩ ∧
    ∀ net net' : Nat → HttpAttempt, net 0 = net' 0 →
      get_page_content net = get_page_content net' := by
  refine ⟨rfl, ?_⟩
  intro net net' h
  unfold get_page_content
  rw [h]

/-- Witness for C4 at concrete attempt oracles. -/
theorem fetch_no_retry_witness :
    ((fun i => if i = 0 then HttpAttempt.status 429 else .ok "a") 0 =
      (fun i => if i = 0 then HttpAttempt.status 429 else .ok "b") 0) ∧
    get_page_content (fun i => if i = 0 then HttpAttempt.status 429 else .ok "a") =
      get_page_content (fun i => if i = 0 then HttpAttempt.status 429 else .ok "b") :=
  ⟨rfl, fetch_no_retry.2 _ _ rfl⟩

/-- Counterexample to C5: `set_check_interval` enforces no upper bound — a
check interval of 525600 minutes (one year) is accepted and stored. -/
theorem set_check_interval_no_upper_bound :
    set_check_interval [] 525600 = .ok [("check_interval_minutes", "525600")] := by
  rfl

/-- C5 (amended): every runtime-settings setter enforces its documented lower
bound with a typed validation error, and the timeout, retries, backoff and
delay setters enforce upper bounds of 300, 20, 10 and 60 respectively; the
check-interval setter enforces only the 3-minute floor (no upper bound), so
`set_check_interval 2` raises while `set_check_interval 5` succeeds and the
value 5 is read back by `get_check_interval` over the same backing storage. -/
theorem settings_validation_bounds :
    (∀ (kv : MetaKV) (m : Int), accepts (set_check_interval kv m) = true ↔ 3 ≤ m) ∧
    (∀ (kv : MetaKV) (t : Rat), accepts (set_request_timeout kv t) = true ↔ 0 < t ∧ t ≤ 300) ∧
    (∀ (kv : MetaKV) (r : Int), accepts (set_request_max_retries kv r) = true ↔ 0 ≤ r ∧ r ≤ 20) ∧
    (∀ (kv : MetaKV) (b : Rat),
      accepts (set_request_backoff_factor kv b) = true ↔ 0 ≤ b ∧ b ≤ 10) ∧
    (∀ (kv : MetaKV) (d : Rat),
      accepts (set_request_delay_seconds kv d) = true ↔ 0 ≤ d ∧ d ≤ 60) ∧
    (∀ kv : MetaKV, accepts (set_check_interval kv 2) = false) ∧
    (∀ (kv : MetaKV) (dflt : Int),
      (set_check_interval kv 5).map (fun kv2 => get_check_interval kv2 dflt) = .ok 5) := by
  refine ⟨?_, ?_, ?_, ?_, ?_, ?_, ?_⟩
  · intro kv m
    unfold set_check_interval accepts
    split_ifs with h1 h2 <;> simp <;> omega
  · intro kv t
    unfold set_request_timeout accepts
    split_ifs with h1 h2
    · simp
      intro h
      linarith
    · simp
      intro h
      linarith
    · simp
      exact ⟨by linarith, by linarith⟩
  · intro kv r
    unfold set_request_max_retries accepts
    split_ifs with h1 h2 <;> simp <;> omega
  · intro kv b
    unfold set_request_backoff_factor accepts
    split_ifs with h1 h2
    · simp
      intro h
      linarith
    · simp
      intro h
      linarith
    · simp
      exact ⟨by linarith, by linarith⟩
  · intro kv d
    unfold set_request_delay_seconds accepts
    split_ifs with h1 h2
    · simp
      intro h
      linarith
    · simp
      intro h
      linarith
    · simp
      exact ⟨by linarith, by linarith⟩
  · intro kv
    unfold set_check_interval accepts
    norm_num
  · intro kv dflt
    have hset : set_check_interval kv 5 =
        .ok (set_meta kv "check_interval_minutes" (toString (5 : Int))) := by
      unfold set_check_interval
      norm_num
    have h5 : toString (5 : Int) = "5" := by decide
    have hget : get_check_interval
        (set_meta kv "check_interval_minutes" (toString (5 : Int))) dflt = 5 := by
      unfold get_check_interval
      rw [get_meta_set_meta_same, h5]
      have hne : ("5" : String) ≠ "" := by decide
      have hint : pyParseInt "5" = some 5 := by decide
      simp [hne, hint]
    rw [hset]
    simp only [Except.map]
    rw [hget]

/-- C6: for a delivered listing, more than one media url yields a media group
capped at 10 entries (the first 10 urls, caption only on the first entry,
extra images silently dropped); exactly one url yields a single
photo-with-caption; none yields a text message; and a listing whose gallery
holds 15 usable images produces an album of exactly 10 entries. -/
theorem delivery_media_plan :
    (∀ (urls : List String) (cap : String) (pm : Option String), 1 < urls.length →
      ∃ media, send_to_chat urls cap pm = .mediaGroup media ∧
        media.map (fun m => m.media) = urls.take 10 ∧
        media.length = min 10 urls.length ∧
        media.head? = some ⟨urls.headD "", some cap, pm⟩ ∧
        ∀ m ∈ media.tail, m.caption = none) ∧
    (∀ (u cap : String) (pm : Option String), send_to_chat [u] cap pm = .photo u cap pm) ∧
    (∀ (cap : String) (pm : Option String), send_to_chat [] cap pm = .message cap pm) ∧
    (∀ (item : Item) (cap : String) (pm : Option String),
      (item.image_urls.filter (fun s => s ≠ "")).length = 15 →
      ∃ media, send_to_chat (select_media_urls item) cap pm = .mediaGroup media ∧
        media.length = 10) := by
  refine ⟨fun urls cap pm h => send_to_chat_album urls cap pm h, ?_, ?_, ?_⟩
  · intro u cap pm
    rfl
  · intro cap pm
    rfl
  · intro item cap pm hlen
    have hne : (item.image_urls.filter (fun s => s ≠ "")).isEmpty = false := by
      cases hfil : item.image_urls.filter (fun s => s ≠ "") with
      | nil => rw [hfil] at hlen; simp at hlen
      | cons a l => rfl
    have hnot : ¬((item.image_urls.filter (fun s => s ≠ "")).isEmpty = true ∧
        item.img_url ≠ "") := by
      intro hcon
      rw [hne] at hcon
      exact Bool.false_ne_true hcon.1
    have hsel : select_media_urls item = item.image_urls.filter (fun s => s ≠ "") := by
      show (if (item.image_urls.filter (fun s => s ≠ "")).isEmpty = true ∧ item.img_url ≠ ""
        then [item.img_url] else item.image_urls.filter (fun s => s ≠ "")) =
          item.image_urls.filter (fun s => s ≠ "")
      rw [if_neg hnot]
    rw [hsel]
    obtain ⟨media, hm, _, hlen2, _, _⟩ :=
      send_to_chat_album (item.image_urls.filter (fun s => s ≠ "")) cap pm
        (by rw [hlen]; norm_num)
    refine ⟨media, hm, ?_⟩
    rw [hlen2, hlen]
    norm_num

/-- Witness for C6 at a three-image album and a fifteen-image listing. -/
theorem delivery_media_plan_witness :
    (1 < (["https://i/1", "https://i/2", "https://i/3"] : List String).length ∧
      (c6_item.image_urls.filter (fun s => s ≠ "")).length = 15) ∧
    (∃ media,
      send_to_chat ["https://i/1", "https://i/2", "https://i/3"] "cap" (some "HTML") =
        .mediaGroup media ∧
      media.map (fun m => m.media) =
        (["https://i/1", "https://i/2", "https://i/3"] : List String).take 10 ∧
      media.length = min 10 (["https://i/1", "https://i/2", "https://i/3"] : List String).length ∧
      media.head? = some ⟨(["https://i/1", "https://i/2", "https://i/3"] : List String).headD "",
        some "cap", some "HTML"⟩ ∧
      ∀ m ∈ media.tail, m.caption = none) ∧
    (∃ media, send_to_chat (select_media_urls c6_item) "cap" none = .mediaGroup media ∧
      media.length = 10) :=
  ⟨⟨by decide, by decide⟩,
    delivery_media_plan.1 ["https://i/1", "https://i/2", "https://i/3"] "cap" (some "HTML")
      (by decide),
    delivery_media_plan.2.2.2 c6_item "cap" none (by decide)⟩

/-- C7: the main-price isolation logic extracts exactly the ruble figure and
its unit — the leading stripped string of the main price block joined with the
Belarusian-ruble currency span, every sibling conversion figure, currency
symbol and reference-rate annotation being filtered out — but at HEAD the
detail extractor returns `None` for every page, because the final
`Item(..., description_table=..., description_text=...)` construction raises
`TypeError` (the slots dataclass declares no such fields), contradicting the
repo's own test which asserts a non-`None` item with the isolated price. -/
theorem detail_price_isolation :
    (∀ (figure currency : String) (rest : List String),
      containsStr (pyLower currency) "бел" = true →
      figure ≠ currency →
      containsStr (pyLower figure) "справочно" = false →
      containsStr figure "$" = false →
      containsStr figure "€" = false →
      extract_main_price (some ⟨some currency, figure :: rest⟩) =
        some (figure ++ " " ++ currency)) ∧
    (∀ (doc : DetailDoc) (item_url : String),
      parse_single_item_page doc item_url = none) := by
  constructor
  · intro figure currency rest hbel hne hsprav hdol heur
    unfold extract_main_price
    simp only [hbel, if_true, List.filter_cons]
    simp [hne, hsprav, hdol, heur]
  · exact fun doc item_url => parse_single_item_page_none doc item_url

/-- Witness for C7 at the reference test page's price block. -/
theorem detail_price_isolation_witness :
    (containsStr (pyLower "бел. руб.") "бел" = true ∧
      ("355,00" : String) ≠ "бел. руб." ∧
      containsStr (pyLower "355,00") "справочно" = false ∧
      containsStr "355,00" "$" = false ∧
      containsStr "355,00" "€" = false) ∧
    extract_main_price (some ⟨some "бел. руб.", "355,00" :: c7_rest⟩) =
      some ("355,00" ++ " " ++ "бел. руб.") ∧
    parse_single_item_page c7_doc "https://ay.by/lot/test-123.html" = none :=
  ⟨⟨by decide, by decide, by decide, by decide, by decide⟩,
    detail_price_isolation.1 "355,00" "бел. руб." c7_rest
      (by decide) (by decide) (by decide) (by decide) (by decide),
    detail_price_isolation.2 c7_doc "https://ay.by/lot/test-123.html"⟩

/-- C8: catalogue parsing never aborts on a malformed card — a card missing
its lot link or image tag is skipped and the rest of the page parses; a page
with one complete and one incomplete card yields exactly the complete one;
and when a valid card's detail page cannot be fetched or parsed, a listing is
still produced, its images taken from the gallery refetch when that yields
urls and from the single card thumbnail otherwise. -/
theorem parse_items_resilience :
    (∀ (card : Card) (rest : List Card) (b : Option String),
      find_lot_anchor card.anchors = none →
      parse_items (card :: rest) b = parse_items rest b) ∧
    (∀ (card : Card) (rest : List Card) (b : Option String),
      card.imgs = [] →
      parse_items (card :: rest) b = parse_items rest b) ∧
    (∀ (c ic : Card) (base : String) (item : Item),
      parse_card c base = some item → parse_card ic base = none →
      parse_items [c, ic] (some base) = [item]) ∧
    (∀ (anchors : List Anchor) (a : Anchor) (h : String) (imgTag : CardImg)
      (imgs : List CardImg) (ss : List String) (df : Option DetailDoc)
      (gal : GalleryDoc) (base link imgUrl : String),
      find_lot_anchor anchors = some a → a.href = some h →
      link = (if pyStartsWith h "http" then h else pyUrljoin base h) →
      imgUrl = normalize_media_url ((pyOr2 imgTag.dataSrc imgTag.src).getD "") (some link) →
      imgUrl ≠ "" →
      parse_gallery_images gal link ≠ [] →
      ∃ item, parse_card ⟨anchors, imgTag :: imgs, ss, df, some gal⟩ base = some item ∧
        item.url = link ∧ item.image_urls = parse_gallery_images gal link) ∧
    (∀ (anchors : List Anchor) (a : Anchor) (h : String) (imgTag : CardImg)
      (imgs : List CardImg) (ss : List String) (df : Option DetailDoc)
      (base link imgUrl : String),
      find_lot_anchor anchors = some a → a.href = some h →
      link = (if pyStartsWith h "http" then h else pyUrljoin base h) →
      imgUrl = normalize_media_url ((pyOr2 imgTag.dataSrc imgTag.src).getD "") (some link) →
      imgUrl ≠ "" →
      ∃ item, parse_card ⟨anchors, imgTag :: imgs, ss, df, none⟩ base = some item ∧
        item.url = link ∧ item.image_urls = [imgUrl] ∧ item.img_url = imgUrl) := by
  refine ⟨?_, ?_, ?_, ?_, ?_⟩
  · intro card rest b hfind
    unfold parse_items
    simp [List.filterMap_cons, parse_card_no_anchor card (b.getD BASE_URL) hfind]
  · intro card rest b himgs
    unfold parse_items
    simp [List.filterMap_cons, parse_card_no_img card (b.getD BASE_URL) himgs]
  · intro c ic base item hc hic
    unfold parse_items
    simp [List.filterMap_cons, hc, hic]
  · intro anchors a h imgTag imgs ss df gal base link imgUrl hfind hhref hlink himgUrl hne hgalne
    obtain ⟨g0, grest, hg⟩ : ∃ g0 grest, parse_gallery_images gal link = g0 :: grest := by
      cases hgg : parse_gallery_images gal link with
      | nil => exact absurd hgg hgalne
      | cons x xs => exact ⟨x, xs, rfl⟩
    have hg0 : g0 ≠ "" :=
      gallery_urls_ne_empty gal link g0 (by rw [hg]; exact List.mem_cons_self g0 grest)
    have heval := parse_card_eval anchors a h imgTag imgs ss df (some gal) base link imgUrl
      (parse_gallery_images gal link) hfind hhref hlink himgUrl hne rfl
    rw [hg] at heval
    simp only [List.isEmpty_cons, Bool.false_eq_true, if_false] at heval
    rw [mk_item_nonempty_head link a.text (extract_price ss) g0 grest hg0] at heval
    exact ⟨_, heval, rfl, by rw [hg]⟩
  · intro anchors a h imgTag imgs ss df base link imgUrl hfind hhref hlink himgUrl hne
    have heval := parse_card_eval anchors a h imgTag imgs ss df none base link imgUrl
      [] hfind hhref hlink himgUrl hne rfl
    simp only [List.isEmpty_nil, if_true, List.headD_cons] at heval
    have hmk : mk_item link a.text (extract_price ss) imgUrl [imgUrl] =
        ⟨link, a.text, extract_price ss, imgUrl, [imgUrl]⟩ := by
      simpa using mk_item_nonempty_head link a.text (extract_price ss) imgUrl [] hne
    rw [hmk] at heval
    exact ⟨_, heval, rfl, rfl, rfl⟩

/-- Witness for C8 at concrete cards: a linkless card and an imageless card
are skipped, a complete-plus-incomplete page yields exactly the complete
listing, and the gallery and thumbnail fallbacks both produce a listing. -/
theorem parse_items_resilience_witness :
    (find_lot_anchor c8_nolink.anchors = none ∧
      parse_items [c8_nolink] (some "https://ay.by") = parse_items [] (some "https://ay.by")) ∧
    (c8_incomplete.imgs = [] ∧
      parse_items [c8_incomplete] (some "https://ay.by") =
        parse_items [] (some "https://ay.by")) ∧
    (parse_card c8_complete "https://ay.by" = some c8_expected ∧
      parse_card c8_incomplete "https://ay.by" = none ∧
      parse_items [c8_complete, c8_incomplete] (some "https://ay.by") = [c8_expected]) ∧
    (∃ item, parse_card c8_gallery_card "https://ay.by" = some item ∧
      item.url = "https://ay.by/lot/item9" ∧
      item.image_urls = parse_gallery_images c8_gal "https://ay.by/lot/item9") ∧
    (∃ item, parse_card c8_complete "https://ay.by" = some item ∧
      item.url = "https://ay.by/lot/item2" ∧
      item.image_urls = ["https://example.com/img2.jpg"] ∧
      item.img_url = "https://example.com/img2.jpg") :=
  ⟨⟨by decide, parse_items_resilience.1 c8_nolink [] (some "https://ay.by") (by decide)⟩,
   ⟨rfl, parse_items_resilience.2.1 c8_incomplete [] (some "https://ay.by") rfl⟩,
   ⟨by decide, by decide,
    parse_items_resilience.2.2.1 c8_complete c8_incomplete "https://ay.by" c8_expected
      (by decide) (by decide)⟩,
   parse_items_resilience.2.2.2.1 [⟨some "https://ay.by/lot/item9", "Item 9"⟩]
     ⟨some "https://ay.by/lot/item9", "Item 9"⟩ "https://ay.by/lot/item9"
     ⟨none, some "https://example.com/t9.jpg"⟩ [] ["Item 9"] none c8_gal
     "https://ay.by" "https://ay.by/lot/item9" "https://example.com/t9.jpg"
     (by decide) rfl (by decide) (by decide) (by decide) (by decide),
   parse_items_resilience.2.2.2.2 [⟨some "https://ay.by/lot/item2", "Item 2"⟩]
     ⟨some "https://ay.by/lot/item2", "Item 2"⟩ "https://ay.by/lot/item2"
     ⟨none, some "https://example.com/img2.jpg"⟩ [] ["Item 2", "200,00", "бел. руб."] none
     "https://ay.by" "https://ay.by/lot/item2" "https://example.com/img2.jpg"
     (by decide) rfl (by decide) (by decide) (by decide)⟩

/-- C9: for every stored page url (with a well-formed query: no empty
segments) and every valid sort-order mutation, the rewritten url differs from
the original only in the `order` query parameter — scheme, host, path and
fragment are unchanged, and the query's segments are exactly the original
segments whose key is not `order`, preserved verbatim and in order, followed
by the new `order` segment when an order is given; passing no order removes
only the `order` segments. -/
theorem update_sort_rewrites_only_order :
    ∀ (parts : UrlParts) (order : Option String),
      (match order with
        | none => True
        | some o => o ∈ valid_orders) →
      (parts.query = "" ∨ [] ∉ splitAmp parts.query.data) →
      ((apply_order_to_url parts order).scheme = parts.scheme ∧
        (apply_order_to_url parts order).netloc = parts.netloc ∧
        (apply_order_to_url parts order).path = parts.path ∧
        (apply_order_to_url parts order).fragment = parts.fragment ∧
        querySegments (apply_order_to_url parts order).query =
          (querySegments parts.query).filter
            (fun seg => seg.isEmpty || segKey seg ≠ "order".data)
          ++ orderSegment order) := by
  intro parts order hvalid hwf
  obtain ⟨h1, h2, h3, h4⟩ := apply_order_fields parts order
  refine ⟨h1, h2, h3, h4, ?_⟩
  have hfo : ∀ o, order = some o → '&' ∉ ("order=" ++ quotePlus o).data := by
    intro o ho
    subst ho
    simp only [valid_orders, List.mem_cons, List.not_mem_nil, or_false] at hvalid
    rcases hvalid with rfl | rfl | rfl | rfl | rfl <;> decide
  have hno : ∀ o, order = some o → ("order=" ++ quotePlus o).data ≠ [] := by
    intro o ho
    subst ho
    simp only [valid_orders, List.mem_cons, List.not_mem_nil, or_false] at hvalid
    rcases hvalid with rfl | rfl | rfl | rfl | rfl <;> decide
  exact apply_order_segments parts order hwf hfo hno

/-- Witness for C9 at a concrete tracked-page url and the `stop` order. -/
theorem update_sort_rewrites_only_order_witness :
    ((match (some "stop" : Option String) with
        | none => True
        | some o => o ∈ valid_orders) ∧
      ((⟨"https", "coins.ay.by", "/rossiya/", "f=1&ti1=6&order=create", ""⟩ : UrlParts).query = ""
        ∨ [] ∉ splitAmp
          (⟨"https", "coins.ay.by", "/rossiya/", "f=1&ti1=6&order=create", ""⟩ : UrlParts).query.data)) ∧
    ((apply_order_to_url
        ⟨"https", "coins.ay.by", "/rossiya/", "f=1&ti1=6&order=create", ""⟩
        (some "stop")).scheme =
      (⟨"https", "coins.ay.by", "/rossiya/", "f=1&ti1=6&order=create", ""⟩ : UrlParts).scheme ∧
      (apply_order_to_url
        ⟨"https", "coins.ay.by", "/rossiya/", "f=1&ti1=6&order=create", ""⟩
        (some "stop")).netloc =
      (⟨"https", "coins.ay.by", "/rossiya/", "f=1&ti1=6&order=create", ""⟩ : UrlParts).netloc ∧
      (apply_order_to_url
        ⟨"https", "coins.ay.by", "/rossiya/", "f=1&ti1=6&order=create", ""⟩
        (some "stop")).path =
      (⟨"https", "coins.ay.by", "/rossiya/", "f=1&ti1=6&order=create", ""⟩ : UrlParts).path ∧
      (apply_order_to_url
        ⟨"https", "coins.ay.by", "/rossiya/", "f=1&ti1=6&order=create", ""⟩
        (some "stop")).fragment =
      (⟨"https", "coins.ay.by", "/rossiya/", "f=1&ti1=6&order=create", ""⟩ : UrlParts).fragment ∧
      querySegments (apply_order_to_url
        ⟨"https", "coins.ay.by", "/rossiya/", "f=1&ti1=6&order=create", ""⟩
        (some "stop")).query =
      (querySegments
        (⟨"https", "coins.ay.by", "/rossiya/", "f=1&ti1=6&order=create", ""⟩ : UrlParts).query).filter
          (fun seg => seg.isEmpty || segKey seg ≠ "order".data)
        ++ orderSegment (some "stop")) :=
  ⟨⟨by decide, by decide⟩,
    update_sort_rewrites_only_order
      ⟨"https", "coins.ay.by", "/rossiya/", "f=1&ti1=6&order=create", ""⟩
      (some "stop") (by decide) (by decide)⟩

end LotSearch
